import Mathlib

/-!
Verification of the document ingestion and metadata-normalization core of the
lab-chatbot-with-multi-query-retriever notebook.

The notebook's first-party logic consists of two metadata callbacks
(`metadata_func` and `clean_metadata`), the configuration of an external JSON
loader and text splitter that together form the ingestion pipeline, and the
context-assembly helper `_combine_documents`.  Python dictionaries are embedded
as functions `String → Option Value`; the callbacks mutate their `metadata`
argument in place, which is embedded by computing the dictionary's contents
after the call as a pure function of the contents before the call.
-/

/-- A Python/JSON value as it can appear in a record or metadata dictionary.
`vNone` embeds Python `None` (JSON null). -/
inductive Value where
  | vStr : String → Value
  | vNone : Value
  | vInt : Int → Value
deriving DecidableEq, Repr

/-- A Python dictionary with string keys, embedded extensionally:
`d k = some v` means key `k` is present with value `v`. -/
def Dict : Type := String → Option Value

/-- The empty dictionary. -/
def Dict.empty : Dict := fun _ => none

/-- `d[k] = v` : update (or insert) key `k` in place; embedded as the contents
of the dictionary after the assignment. -/
def Dict.set (d : Dict) (k : String) (v : Value) : Dict :=
  fun q => if q = k then some v else d q

/-- `d.pop(k, default)` : remove key `k` if present; embedded as the contents
of the dictionary after the call (with a default supplied, a missing key is
not an error and the dictionary is unchanged, which coincides extensionally
with mapping `k` to `none`). -/
def Dict.pop (d : Dict) (k : String) : Dict :=
  fun q => if q = k then none else d q

/-- `d.get(k, default)` : lookup with a default, never raising. -/
def Dict.getD (d : Dict) (k : String) (v : Value) : Value :=
  (d k).getD v

/-- A calendar timestamp as produced by `datetime.fromisoformat`
(no fractional seconds or timezone in the modelled fragment). -/
structure DateTime where
  year : Nat
  month : Nat
  day : Nat
  hour : Nat
  minute : Nat
  second : Nat
deriving DecidableEq, Repr

/-- Numeric value of a decimal digit character. -/
def digitVal (c : Char) : Nat := c.toNat - 48

/-- Gregorian leap-year test, as in Python's `datetime`. -/
def isLeap (y : Nat) : Bool :=
  y % 4 = 0 && (y % 100 != 0 || y % 400 = 0)

/-- Number of days in a month, as validated by Python's `datetime`. -/
def daysInMonth (y m : Nat) : Nat :=
  if m = 2 then (if isLeap y then 29 else 28)
  else if m = 4 || m = 6 || m = 9 || m = 11 then 30
  else 31

/-- Modelled from the spec: the time-of-day part `HH:MM:SS` accepted by the
standard library's `datetime.fromisoformat`, which is not part of this
repository's sources. -/
def parseTime : List Char → Option (Nat × Nat × Nat)
  | [h1, h2, c1, m1, m2, c2, s1, s2] =>
    if h1.isDigit && h2.isDigit && c1 = ':' && m1.isDigit && m2.isDigit &&
        c2 = ':' && s1.isDigit && s2.isDigit then
      let h := 10 * digitVal h1 + digitVal h2
      let mi := 10 * digitVal m1 + digitVal m2
      let se := 10 * digitVal s1 + digitVal s2
      if h ≤ 23 && mi ≤ 59 && se ≤ 59 then some (h, mi, se) else none
    else none
  | _ => none

/-- Modelled from the spec: `datetime.fromisoformat` (standard library, not
part of this repository's sources) on the common `YYYY-MM-DD` and
`YYYY-MM-DD[T ]HH:MM:SS` forms; any string outside this fragment, and any
malformed string, fails to parse (`none` embeds the raised `ValueError`). -/
def fromisoformat (s : String) : Option DateTime :=
  match s.toList with
  | y1 :: y2 :: y3 :: y4 :: c1 :: mo1 :: mo2 :: c2 :: d1 :: d2 :: rest =>
    if y1.isDigit && y2.isDigit && y3.isDigit && y4.isDigit && c1 = '-' &&
        mo1.isDigit && mo2.isDigit && c2 = '-' && d1.isDigit && d2.isDigit then
      let y := 1000 * digitVal y1 + 100 * digitVal y2 + 10 * digitVal y3 + digitVal y4
      let mo := 10 * digitVal mo1 + digitVal mo2
      let d := 10 * digitVal d1 + digitVal d2
      if 1 ≤ y && 1 ≤ mo && mo ≤ 12 && 1 ≤ d && d ≤ daysInMonth y mo then
        match rest with
        | [] => some ⟨y, mo, d, 0, 0, 0⟩
        | sep :: t =>
          if sep = 'T' || sep = ' ' then
            match parseTime t with
            | some (h, mi, se) => some ⟨y, mo, d, h, mi, se⟩
            | none => none
          else none
      else none
    else none
  | _ => none

/-- Zero-padded two-digit decimal rendering. -/
def pad2 (n : Nat) : String :=
  if n < 10 then "0" ++ toString n else toString n

/-- Zero-padded four-digit decimal rendering. -/
def pad4 (n : Nat) : String :=
  if n < 10 then "000" ++ toString n
  else if n < 100 then "00" ++ toString n
  else if n < 1000 then "0" ++ toString n
  else toString n

/-- Modelled from the spec: `datetime.isoformat` (standard library, not part
of this repository's sources): the canonical ISO-8601 rendering
`YYYY-MM-DDTHH:MM:SS` of a parsed timestamp. -/
def isoformat (dt : DateTime) : String :=
  pad4 dt.year ++ "-" ++ pad2 dt.month ++ "-" ++ pad2 dt.day ++ "T" ++
    pad2 dt.hour ++ ":" ++ pad2 dt.minute ++ ":" ++ pad2 dt.second

/-- `datetime.fromisoformat` applied to an arbitrary record value: a
non-string argument raises `TypeError`, embedded as a parse failure
(the notebook catches every exception alike). -/
def fromisoformat_val (v : Value) : Option DateTime :=
  match v with
  | Value.vStr s => fromisoformat s
  | _ => none

/-- The notebook's `metadata_func(record, metadata)` callback: copies
`name`, `summary`, `url`, `category` out of the record with default `""`,
then tries to canonicalize `record.get("updated_at", "")`; on success stores
the canonical form, on any exception pops the key with a default.  The Python
function mutates `metadata` in place and returns it; the embedding returns
the contents of that dictionary after the call. -/
def metadata_func (record metadata : Dict) : Dict :=
  let m1 := metadata.set "name" (record.getD "name" (Value.vStr ""))
  let m2 := m1.set "summary" (record.getD "summary" (Value.vStr ""))
  let m3 := m2.set "url" (record.getD "url" (Value.vStr ""))
  let m4 := m3.set "category" (record.getD "category" (Value.vStr ""))
  let updated_raw := record.getD "updated_at" (Value.vStr "")
  match fromisoformat_val updated_raw with
  | some dt => m4.set "updated_at" (Value.vStr (isoformat dt))
  | none => m4.pop "updated_at"

/-- The notebook's `clean_metadata(record, metadata)` callback: when the
record has an `updated_at` key it tries to canonicalize it, storing the
canonical form on success and `None` on any exception; otherwise the metadata
is returned untouched.  As with `metadata_func`, the embedding returns the
contents of the mutated dictionary. -/
def clean_metadata (record metadata : Dict) : Dict :=
  match record "updated_at" with
  | some v =>
    match fromisoformat_val v with
    | some dt => metadata.set "updated_at" (Value.vStr (isoformat dt))
    | none => metadata.set "updated_at" Value.vNone
  | none => metadata

/-- `datetime.fromisoformat` at the exception level: `Except.error` embeds the
raised `ValueError`/`TypeError`. -/
def fromisoformat_exc (v : Value) : Except String DateTime :=
  match v with
  | Value.vStr s =>
    match fromisoformat s with
    | some dt => Except.ok dt
    | none => Except.error "ValueError"
  | _ => Except.error "TypeError"

/-- `d.pop(k, default)` at the exception level: without a default, a missing
key raises `KeyError`; with a default it never raises. -/
def Dict.pop_impl (d : Dict) (k : String) (default : Option Value) :
    Except String (Value × Dict) :=
  match d k with
  | some v => Except.ok (v, d.pop k)
  | none =>
    match default with
    | some v => Except.ok (v, d.pop k)
    | none => Except.error "KeyError"

/-- `metadata_func` with the exception flow made explicit: the `try` body may
raise inside `fromisoformat`; the bare `except` catches everything and runs
the defaulted `metadata.pop("updated_at", None)`, which itself cannot raise.
The call returns normally iff this computation is `Except.ok`. -/
def metadata_func_impl (record metadata : Dict) : Except String Dict :=
  let m1 := metadata.set "name" (record.getD "name" (Value.vStr ""))
  let m2 := m1.set "summary" (record.getD "summary" (Value.vStr ""))
  let m3 := m2.set "url" (record.getD "url" (Value.vStr ""))
  let m4 := m3.set "category" (record.getD "category" (Value.vStr ""))
  let updated_raw := record.getD "updated_at" (Value.vStr "")
  let body : Except String Dict :=
    match fromisoformat_exc updated_raw with
    | Except.ok dt => Except.ok (m4.set "updated_at" (Value.vStr (isoformat dt)))
    | Except.error e => Except.error e
  match body with
  | Except.ok d => Except.ok d
  | Except.error _ =>
    match m4.pop_impl "updated_at" (some Value.vNone) with
    | Except.ok (_, d) => Except.ok d
    | Except.error e => Except.error e

/-- The `content` field of a raw record as the loader hands it to the
splitter; a missing or non-string content is treated as empty text. -/
def contentOf (r : Dict) : String :=
  match r "content" with
  | some (Value.vStr s) => s
  | _ => ""

/-- Modelled from the spec: the external `RecursiveCharacterTextSplitter`
(chunk size 800, overlap 400, hence step 400) is not part of this
repository's sources; the Chunker contract of the spec is realized by
fixed-size overlapping windows, empty content yielding no chunks.  The fuel
argument is an upper bound on the recursion depth. -/
def chunkAux : Nat → List Char → List (List Char)
  | _, [] => []
  | 0, l => [l]
  | fuel + 1, l =>
    if l.length ≤ 800 then [l] else l.take 800 :: chunkAux fuel (l.drop 400)

/-- Chunk a content string into passages of at most 800 characters
overlapping by 400. -/
def chunkText (s : String) : List String :=
  (chunkAux s.data.length s.data).map (fun l => String.mk l)

/-- A Passage: one chunk of a source record's content, tagged with a copy of
the record's normalized metadata and its 1-based sequence number within the
record. -/
structure Passage where
  content : String
  metadata : Dict
  seq_num : Nat

/-- Number a record's chunks consecutively starting from `start`, attaching
the shared normalized metadata to each. -/
def numberChunks (md : Dict) (start : Nat) : List String → List Passage
  | [] => []
  | c :: cs => ⟨c, md, start⟩ :: numberChunks md (start + 1) cs

/-- Modelled from the spec: the Ingestion Pipeline step for one Raw Record
(the notebook delegates it to the external `JSONLoader.load_and_split`, which
is not part of this repository's sources): normalize the record's metadata
with the configured callback `metadata_func`, chunk its `content`, and emit
one Passage per chunk with a 1-based sequence number. -/
def ingest_record (r : Dict) : List Passage :=
  numberChunks (metadata_func r Dict.empty) 1 (chunkText (contentOf r))

/-- Modelled from the spec: the Ingestion Pipeline over an ordered sequence
of Raw Records, emitting each record's Passages in source order. -/
def ingest : List Dict → List Passage
  | [] => []
  | r :: rs => ingest_record r ++ ingest rs

/-- A retrieved document as handed to the Context Assembler: the passage text
plus its metadata. -/
structure Document where
  page_content : String
  metadata : Dict

/-- Opening brace character (template placeholder delimiter). -/
def lbrace : Char := Char.ofNat 123

/-- Closing brace character (template placeholder delimiter). -/
def rbrace : Char := Char.ofNat 125

/-- Split a character list at the first closing brace, returning the
placeholder name and the remainder; `none` if no closing brace occurs. -/
def splitAtR : List Char → Option (List Char × List Char)
  | [] => none
  | c :: rest =>
    if c = rbrace then some ([], rest)
    else
      match splitAtR rest with
      | some (v, rem) => some (c :: v, rem)
      | none => none

/-- Template substitution: replace each placeholder by its binding.  Models
Python template formatting on templates whose placeholders are all bound (the
only way the notebook uses it); an unbound or unterminated placeholder is
left as literal text.  The fuel argument bounds the recursion. -/
def substAux (vars : String → Option String) : Nat → List Char → List Char
  | _, [] => []
  | 0, l => l
  | fuel + 1, c :: rest =>
    if c = lbrace then
      match splitAtR rest with
      | some (v, rem) =>
        match vars (String.mk v) with
        | some repl => repl.data ++ substAux vars fuel rem
        | none => c :: (v ++ rbrace :: substAux vars fuel rem)
      | none => c :: substAux vars fuel rest
    else c :: substAux vars fuel rest

/-- The variable bindings `format_document` passes to the per-passage
template: `page_content` is the passage text, every other placeholder is
looked up in the passage's metadata. -/
def docVars (doc : Document) (k : String) : Option String :=
  if k = "page_content" then some doc.page_content
  else
    match doc.metadata k with
    | some (Value.vStr s) => some s
    | _ => none

/-- Modelled from the spec: langchain's `format_document` (not part of this
repository's sources) renders one retrieved passage through the per-passage
template by substituting `page_content` and the metadata fields. -/
def format_document (doc : Document) (prompt : String) : String :=
  String.mk (substAux (docVars doc) prompt.data.length prompt.data)

/-- The notebook's per-passage prompt `LLM_DOCUMENT_PROMPT`. -/
def LLM_DOCUMENT_PROMPT : String :=
  "\n---\nSOURCE: {name}\n{page_content}\n---\n"

/-- The notebook's `_combine_documents(docs, document_prompt,
document_separator)`: render every retrieved document through the template
and join the renderings with the separator, in input order. -/
def _combine_documents (docs : List Document) (document_prompt : String)
    (document_separator : String) : String :=
  String.intercalate document_separator
    (docs.map (fun d => format_document d document_prompt))

/-! ## Helper lemmas -/

/-- Evaluating `metadata_func` at the `updated_at` key: the stored value is
the canonical rendering of the parsed timestamp when parsing succeeds, and
the key is absent otherwise. -/
theorem metadata_func_updated_at_eq (r m : Dict) :
    metadata_func r m "updated_at" =
      (fromisoformat_val (r.getD "updated_at" (Value.vStr ""))).map
        (fun dt => Value.vStr (isoformat dt)) := by
  cases hfv : fromisoformat_val (r.getD "updated_at" (Value.vStr "")) <;>
    simp [metadata_func, hfv, Dict.set, Dict.pop]

/-- When the record value parses, the exception-level parser returns it. -/
theorem fromisoformat_exc_ok (v : Value) (dt : DateTime)
    (h : fromisoformat_val v = some dt) : fromisoformat_exc v = Except.ok dt := by
  cases v with
  | vStr s =>
    simp only [fromisoformat_val] at h
    simp [fromisoformat_exc, h]
  | vNone => simp [fromisoformat_val] at h
  | vInt n => simp [fromisoformat_val] at h

/-- When the record value does not parse, the exception-level parser raises. -/
theorem fromisoformat_exc_err (v : Value)
    (h : fromisoformat_val v = none) : ∃ e, fromisoformat_exc v = Except.error e := by
  cases v with
  | vStr s =>
    simp only [fromisoformat_val] at h
    exact ⟨"ValueError", by simp [fromisoformat_exc, h]⟩
  | vNone => exact ⟨"TypeError", rfl⟩
  | vInt n => exact ⟨"TypeError", rfl⟩

/-- The chunk texts of a record's passages are exactly its chunks. -/
theorem numberChunks_map_content (md : Dict) (start : Nat) (cs : List String) :
    (numberChunks md start cs).map Passage.content = cs := by
  induction cs generalizing start with
  | nil => rfl
  | cons c cs ih => simp [numberChunks, ih]

/-- The sequence numbers of a record's passages count up from `start`. -/
theorem numberChunks_map_seq (md : Dict) (start : Nat) (cs : List String) :
    (numberChunks md start cs).map Passage.seq_num = List.range' start cs.length := by
  induction cs generalizing start with
  | nil => rfl
  | cons c cs ih =>
    simp [numberChunks, ih, List.length_cons, List.range'_succ]

/-- Every passage of a record carries the shared normalized metadata. -/
theorem numberChunks_metadata (md : Dict) (start : Nat) (cs : List String) :
    ∀ p ∈ numberChunks md start cs, p.metadata = md := by
  induction cs generalizing start with
  | nil => intro p hp; cases hp
  | cons c cs ih =>
    intro p hp
    rcases List.mem_cons.mp hp with h | h
    · rw [h]
    · exact ih (start + 1) p h

/-- The pipeline distributes over concatenation of the record sequence. -/
theorem ingest_append (xs ys : List Dict) :
    ingest (xs ++ ys) = ingest xs ++ ingest ys := by
  induction xs with
  | nil => rfl
  | cons r rs ih => simp [ingest, ih]

/-! ## Witness inputs -/

/-- A record whose `updated_at` is a valid (non-canonical) ISO-8601 string. -/
def recValid : Dict := fun k =>
  if k = "updated_at" then some (Value.vStr "2020-06-15 08:05:09") else none

/-- A caller metadata dictionary holding an unrelated `source` entry. -/
def mdSource : Dict := fun k =>
  if k = "source" then some (Value.vStr "temp.json") else none

/-! ## Claims -/

/-- C1: for every raw record and caller metadata, the normalizer callback
`metadata_func` leaves the `updated_at` key present iff the record's raw
value parses as a valid ISO-8601 timestamp; on success the stored value is
the canonical string (never `None` or another sentinel), and on any parse
failure (missing, empty, malformed, or non-string) the key is entirely
absent. -/
theorem metadata_func_updated_at_present_iff (r m : Dict) :
    (metadata_func r m "updated_at" ≠ none ↔
      (fromisoformat_val (Dict.getD r "updated_at" (Value.vStr ""))).isSome) ∧
    (∀ v, metadata_func r m "updated_at" = some v →
      ∃ dt, fromisoformat_val (Dict.getD r "updated_at" (Value.vStr "")) = some dt ∧
        v = Value.vStr (isoformat dt)) := by
  cases hfv : fromisoformat_val (Dict.getD r "updated_at" (Value.vStr "")) with
  | none => simp [metadata_func_updated_at_eq, hfv]
  | some dt =>
    constructor
    · simp [metadata_func_updated_at_eq, hfv]
    · intro v hv
      rw [metadata_func_updated_at_eq, hfv] at hv
      simp only [Option.map_some'] at hv
      exact ⟨dt, rfl, (Option.some_inj.mp hv).symm⟩

/-- Witness for C1 at a concrete record with a parsable timestamp. -/
theorem metadata_func_updated_at_present_iff_witness :
    ∃ dt, fromisoformat_val (Dict.getD recValid "updated_at" (Value.vStr "")) = some dt ∧
      Value.vStr "2020-06-15T08:05:09" = Value.vStr (isoformat dt) :=
  (metadata_func_updated_at_present_iff recValid Dict.empty).2
    (Value.vStr "2020-06-15T08:05:09") (by decide)

/-- C3 counterexample: the claim that the record normalizer leaves the
caller's input mappings unmodified is false.  The Python `metadata_func`
assigns into the `metadata` dictionary it was passed, so after the call the
caller's mapping holds the returned contents; already on the empty record
and empty metadata those contents differ from the input (the key `name` has
been inserted). -/
theorem metadata_func_modifies_input :
    ¬ metadata_func Dict.empty Dict.empty = Dict.empty := fun h =>
  absurd (congrFun h "name") (by decide)

/-- C3 amended: the record normalizer is deterministic — its result depends
only on its two arguments — but it updates the caller's metadata mapping in
place; the update is confined to the keys `name`, `summary`, `url`,
`category` and `updated_at`, every other entry of the caller's mapping being
preserved. -/
theorem metadata_func_deterministic_frame (r m : Dict) (k : String)
    (h1 : k ≠ "name") (h2 : k ≠ "summary") (h3 : k ≠ "url")
    (h4 : k ≠ "category") (h5 : k ≠ "updated_at") :
    metadata_func r m k = m k := by
  cases hfv : fromisoformat_val (Dict.getD r "updated_at" (Value.vStr "")) <;>
    simp [metadata_func, hfv, Dict.set, Dict.pop, h1, h2, h3, h4, h5]

/-- Witness for the amended C3: an unrelated `source` entry survives. -/
theorem metadata_func_deterministic_frame_witness :
    metadata_func recValid mdSource "source" = mdSource "source" :=
  metadata_func_deterministic_frame recValid mdSource "source"
    (by decide) (by decide) (by decide) (by decide) (by decide)

/-- C4: for every raw record in which one of the optional fields `name`,
`summary`, `url`, `category` is absent, the normalizer output has that key
present with value the empty string. -/
theorem metadata_func_missing_optional_defaults (r m : Dict) (k : String)
    (hk : k = "name" ∨ k = "summary" ∨ k = "url" ∨ k = "category")
    (hmiss : r k = none) :
    metadata_func r m k = some (Value.vStr "") := by
  cases hfv : fromisoformat_val ((r "updated_at").getD (Value.vStr "")) <;>
    rcases hk with h | h | h | h <;> subst h <;>
      simp [metadata_func, hfv, Dict.set, Dict.pop, Dict.getD, hmiss]

/-- Witness for C4 on the empty record. -/
theorem metadata_func_missing_optional_defaults_witness :
    metadata_func Dict.empty Dict.empty "name" = some (Value.vStr "") :=
  metadata_func_missing_optional_defaults Dict.empty Dict.empty "name"
    (Or.inl rfl) rfl

/-- C5: for every raw record whose `updated_at` field is a string that parses
as an ISO-8601 timestamp, the normalizer stores under `updated_at` exactly
the canonical ISO-8601 rendering of the parsed timestamp. -/
theorem metadata_func_canonicalizes (r m : Dict) (s : String) (dt : DateTime)
    (hr : r "updated_at" = some (Value.vStr s))
    (hp : fromisoformat s = some dt) :
    metadata_func r m "updated_at" = some (Value.vStr (isoformat dt)) := by
  rw [metadata_func_updated_at_eq]
  simp [Dict.getD, hr, fromisoformat_val, hp]

/-- Witness for C5: a space-separated timestamp is stored in canonical
`T`-separated form. -/
theorem metadata_func_canonicalizes_witness :
    metadata_func recValid Dict.empty "updated_at" =
      some (Value.vStr (isoformat ⟨2020, 6, 15, 8, 5, 9⟩)) :=
  metadata_func_canonicalizes recValid Dict.empty "2020-06-15 08:05:09"
    ⟨2020, 6, 15, 8, 5, 9⟩ (by decide) (by decide)

/-- C9: `clean_metadata` modifies at most the `updated_at` entry of the
metadata mapping it is given: every other key, in particular `name`,
`summary`, `url` and `category`, is returned exactly as received (so no
defaults are ever added for them). -/
theorem clean_metadata_touches_only_updated_at (r m : Dict) (k : String)
    (h : k ≠ "updated_at") : clean_metadata r m k = m k := by
  unfold clean_metadata
  cases r "updated_at" with
  | none => rfl
  | some v => cases hv : fromisoformat_val v <;> simp [hv, Dict.set, h]

/-- Witness for C9: `clean_metadata` adds no `name` default. -/
theorem clean_metadata_touches_only_updated_at_witness :
    clean_metadata recValid Dict.empty "name" = Dict.empty "name" :=
  clean_metadata_touches_only_updated_at recValid Dict.empty "name" (by decide)

/-- C10: `metadata_func` is total on its public interface: with the exception
flow made explicit, the call returns normally on every record and metadata
dictionary — the bare `except` catches any parse exception and the defaulted
`pop` never raises on an absent key — and the returned dictionary is the one
computed by the pure embedding. -/
theorem metadata_func_total (r m : Dict) :
    metadata_func_impl r m = Except.ok (metadata_func r m) := by
  cases hfv : fromisoformat_val (Dict.getD r "updated_at" (Value.vStr "")) with
  | some dt =>
    simp [metadata_func_impl, metadata_func, hfv, fromisoformat_exc_ok _ _ hfv]
  | none =>
    obtain ⟨e, he⟩ := fromisoformat_exc_err _ hfv
    cases hm : m "updated_at" <;>
      simp [metadata_func_impl, metadata_func, hfv, he, Dict.pop_impl,
        Dict.set, Dict.pop, hm]

/-- A record with a short non-empty content. -/
def recPlain : Dict := fun k =>
  if k = "content" then some (Value.vStr "hi") else none

/-- A record whose content is present but empty. -/
def recBlank : Dict := fun k =>
  if k = "content" then some (Value.vStr "") else none

/-- C2: every Passage emitted from a Raw Record carries one chunk of that
record's content (the chunk texts, in order, are exactly the record's
chunks), a copy of the record's normalized metadata, and a 1-based sequence
number; the sequence numbers are `1, 2, …`, hence pairwise distinct within
the record and ordering its passages. -/
theorem ingest_record_passage_shape (r : Dict) :
    (ingest_record r).map Passage.content = chunkText (contentOf r) ∧
    (ingest_record r).map Passage.seq_num =
      List.range' 1 (chunkText (contentOf r)).length ∧
    ((ingest_record r).map Passage.seq_num).Nodup ∧
    ∀ p ∈ ingest_record r, p.metadata = metadata_func r Dict.empty := by
  unfold ingest_record
  refine ⟨numberChunks_map_content _ _ _, numberChunks_map_seq _ _ _, ?_,
    numberChunks_metadata _ _ _⟩
  rw [numberChunks_map_seq]
  exact List.nodup_range' 1 (chunkText (contentOf r)).length

/-- Witness for C2 on a one-chunk record. -/
theorem ingest_record_passage_shape_witness :
    (ingest_record recPlain).map Passage.seq_num = [1] ∧
    (⟨"hi", metadata_func recPlain Dict.empty, 1⟩ : Passage).metadata =
      metadata_func recPlain Dict.empty := by
  have h := ingest_record_passage_shape recPlain
  refine ⟨?_, h.2.2.2 ⟨"hi", metadata_func recPlain Dict.empty, 1⟩ ?_⟩
  · rw [h.2.1]; rfl
  · exact List.mem_singleton.mpr rfl

/-- C6: a Raw Record with missing or empty `content` contributes zero
Passages, and the surrounding records of the input sequence are still
processed exactly as without it. -/
theorem ingest_skips_empty_content (pre post : List Dict) (r : Dict)
    (h : r "content" = none ∨ r "content" = some (Value.vStr "")) :
    ingest_record r = [] ∧
    ingest (pre ++ r :: post) = ingest pre ++ ingest post := by
  have hc : contentOf r = "" := by
    rcases h with h | h <;> simp [contentOf, h]
  have hr : ingest_record r = [] := by
    unfold ingest_record
    rw [hc]
    rfl
  refine ⟨hr, ?_⟩
  rw [ingest_append]
  simp [ingest, hr]

/-- Witness for C6: an empty-content record between two normal records. -/
theorem ingest_skips_empty_content_witness :
    ingest_record recBlank = [] ∧
    ingest ([recPlain] ++ recBlank :: [recPlain]) =
      ingest [recPlain] ++ ingest [recPlain] :=
  ingest_skips_empty_content [recPlain] [recPlain] recBlank (Or.inr (by decide))

/-- C7: the Context Assembler renders each passage through the per-passage
template and joins the renderings with the separator in input order; on the
two passages named `A` and `B` with contents `x` and `y`, the template
rendering `SOURCE: `, the name, a newline and the passage content, and the
double-newline separator, it returns exactly the string of the claim.  (The
spec writes the passage-content placeholder as `content`; the code's
documents expose the passage content under the template variable
`page_content`.) -/
theorem combine_documents_concrete :
    _combine_documents
      [⟨"x", fun k => if k = "name" then some (Value.vStr "A") else none⟩,
       ⟨"y", fun k => if k = "name" then some (Value.vStr "B") else none⟩]
      "SOURCE: {name}\n{page_content}" "\n\n" =
      "SOURCE: A\nx\n\nSOURCE: B\ny" := by
  decide

/-- C8: the Context Assembler on an empty sequence of retrieved passages
returns the empty string (and, being a total function, raises nothing), for
every template and separator. -/
theorem combine_documents_empty (document_prompt document_separator : String) :
    _combine_documents [] document_prompt document_separator = "" := rfl
